import Mathlib

/-
  Verification development for the `url_metadata` repository.

  Shallow embedding of `src/url_metadata/core.py`, `src/url_metadata/utils.py`
  and the collaborator boundaries described by the specification.  Machine
  state (the cache store and the "last captured raw response") is passed
  explicitly; the network, the summarizer and the site extractors are
  parameters of the model.
-/

set_option linter.unusedVariables false

namespace UrlMeta

/-! ## String helpers: `clean_url` (utils.py lines 36-41) -/

/-- Hex-digit test, as accepted by Python's percent-decoding. -/
def isHexDigit (c : Char) : Bool :=
  c.isDigit || ('a' ≤ c && c ≤ 'f') || ('A' ≤ c && c ≤ 'F')

/-- Value of one hex digit. -/
def hexVal (c : Char) : Nat :=
  if c.isDigit then c.toNat - '0'.toNat
  else if 'a' ≤ c && c ≤ 'f' then c.toNat - 'a'.toNat + 10
  else c.toNat - 'A'.toNat + 10

/-- Model of Python's `urllib.parse.unquote` on a character list: a `%`
followed by two hex digits decodes to the character with that code; a `%`
not followed by two hex digits is kept verbatim.  Faithful to CPython for
escape values in the ASCII range (the only range exercised below); multi-byte
UTF-8 escape runs are out of the modelled fragment. -/
def unquoteAux : Nat → List Char → List Char
  | 0, _ => []
  | _ + 1, [] => []
  | fuel + 1, '%' :: a :: b :: rest =>
    if isHexDigit a && isHexDigit b then
      Char.ofNat (16 * hexVal a + hexVal b) :: unquoteAux fuel rest
    else
      '%' :: unquoteAux fuel (a :: b :: rest)
  | fuel + 1, c :: rest => c :: unquoteAux fuel rest

/-- `unquoteAux` driven with enough fuel to consume the whole list (each
step consumes at least one character, so the length suffices). -/
def unquoteChars (l : List Char) : List Char := unquoteAux l.length l

/-- Whitespace stripped by Python's `str.strip()` (ASCII fragment). -/
def isPySpace (c : Char) : Bool :=
  c = ' ' || c = '\t' || c = '\n' || c = '\r' || c = Char.ofNat 11 || c = Char.ofNat 12

/-- Model of Python `str.strip()`: drop leading and trailing whitespace. -/
def pystrip (s : String) : String :=
  String.mk (((s.data.dropWhile isPySpace).reverse.dropWhile isPySpace).reverse)

/-- `utils.clean_url`: `unquote(url).strip()`. -/
def clean_url (url : String) : String :=
  pystrip (String.mk (unquoteChars url.data))

/-! ## Data model

`model.py` is not part of the provided sources; the record is modelled from
the spec (section 3): fixed fields `url`, `timestamp`, `info` (optional
mapping of generic fields) and `html_summary` (optional extracted text). -/

/-- Generic metadata fields returned by the opaque fetch collaborator
(title, description, images, ...), modelled as an association list. -/
abbrev InfoDict := List (String × String)

/-- Modelled from the spec: the `Metadata` record (`model.py` is not under
`src/`).  Fixed fields only; extractor-added open fields are reached through
the extractor hooks and do not affect the claims below. -/
structure Metadata where
  url : String
  timestamp : Nat
  info : Option InfoDict := none
  html_summary : Option String := none
  deriving Repr, DecidableEq

/-- Python truthiness of the optional `info` mapping, as used by
`bool(metadata.info)` in `request_data`: `None` and the empty dict are
falsy. -/
def truthy : Option InfoDict → Bool
  | none => false
  | some d => !d.isEmpty

/-- A raw HTTP response as observed through the `SaveSession` callback:
the body text and the status code are all that `core.py` reads. -/
structure Response where
  text : String
  status_code : Nat
  deriving Repr, DecidableEq

/-! ## Site extractors (`sites/abstract.py`) -/

/-- A site extractor instance: the three-method contract of
`AbstractSite` (`matches_site`, `extract_info`, `preprocess_url`). -/
structure Extractor where
  matches_site : String → Bool
  extract_info : String → Metadata → Metadata
  preprocess_url : String → String

/-! ## Fibonacci backoff (utils.py lines 18-26) -/

/-- The `backoff.fibo` generator as an index function: yields
1, 1, 2, 3, 5, 8, 13, 21, 34, ... -/
def fibo : Nat → Nat
  | 0 => 1
  | 1 => 1
  | n + 2 => fibo n + fibo (n + 1)

/-- `utils.fibo_backoff`: the Fibonacci generator with the first 6 elements
consumed, so it yields 13, 21, 34, ... -/
def fibo_backoff (n : Nat) : Nat := fibo (n + 6)

/-! ## The network collaborator -/

/-- Behaviour of one invocation of `lassie.fetch` on the wire: the raw
responses received during the attempt (each is passed to the
`SaveSession` callback in order) and the returned field dict, `none`
meaning `LassieError` was raised. -/
structure FetchAttempt where
  responses : List Response
  result : Option InfoDict

/-- The opaque network collaborator: for a URL and a 0-based attempt
index, the behaviour of that `lassie.fetch` invocation. -/
structure NetOracle where
  attempt : String → Nat → FetchAttempt

/-- The "last captured raw response" after an attempt delivered `rs`:
the callback `_save_http_response` overwrites `self._response` with each
response in turn, so the last one wins; if the attempt produced no
response the previous value is kept. -/
def lastResponse (prior : Option Response) (rs : List Response) : Option Response :=
  match rs.getLast? with
  | some r => some r
  | none => prior

/-- Outcome of one un-decorated call of `_fetch_lassie` (core.py lines
203-216). -/
structure OnceResult where
  result : Option InfoDict
  raised : Bool
  response : Option Response

/-- One un-decorated call of `_fetch_lassie` (core.py lines 203-216):
try `lassie.fetch`; on success return the dict; on `LassieError`, if the
current last-captured response has status 429 raise
`URLMetadataRequestException`, otherwise return `None`. -/
def fetchLassieOnce (net : NetOracle) (url : String) (k : Nat)
    (prior : Option Response) : OnceResult :=
  let a := net.attempt url k
  let resp := lastResponse prior a.responses
  match a.result with
  | some meta => { result := some meta, raised := false, response := resp }
  | none =>
    if (match resp with | some r => r.status_code == 429 | none => false) then
      { result := none, raised := true, response := resp }
    else
      { result := none, raised := false, response := resp }

/-- Result of the backoff-decorated `_fetch_lassie`: the returned dict or
the propagated `URLMetadataRequestException` message, the final
last-captured response, the number of `lassie.fetch` calls made and the
total backoff wait consumed from the generator. -/
structure FetchOutcome where
  result : Except String (Option InfoDict)
  response : Option Response
  attempts : Nat
  waited : Nat

/-- The retry loop of the `backoff.on_exception` decorator around
`_fetch_lassie`, modelled from the `backoff` library contract used at
core.py lines 200-202: `max_tries` bounds the number of calls of the
target; before each retry the next wait is drawn from the `fibo_backoff`
generator and slept; after the final failed call the exception propagates
with no further wait (there is no next attempt to wait for).  Jitter is
omitted: waits are the generator's values, the spec's "simulated
backoff".  `k` is the attempt index, `fuel` the number of retries still
allowed. -/
def fetchLassieFrom (net : NetOracle) (url : String) (k : Nat) (fuel : Nat)
    (prior : Option Response) : FetchOutcome :=
  let o := fetchLassieOnce net url k prior
  if o.raised then
    match fuel with
    | 0 =>
      { result := Except.error ("Received 429 for URL " ++ url ++ ", waiting to retry...")
        response := o.response, attempts := 1, waited := 0 }
    | fuel' + 1 =>
      let rest := fetchLassieFrom net url (k + 1) fuel' o.response
      { result := rest.result, response := rest.response
        attempts := rest.attempts + 1, waited := fibo_backoff k + rest.waited }
  else
    { result := Except.ok o.result, response := o.response, attempts := 1, waited := 0 }

/-- `_fetch_lassie` with its decorator, `max_tries=3`: the first call plus
at most two retries. -/
def fetchLassie (net : NetOracle) (url : String) (prior : Option Response) :
    FetchOutcome :=
  fetchLassieFrom net url 0 2 prior

/-- The dict available after the `try/except URLMetadataRequestException`
in `request_data` (core.py lines 171-175): a propagated exception is
swallowed and `metadata.info` keeps its default `None`. -/
def exceptInfo : Except String (Option InfoDict) → Option InfoDict
  | Except.ok i => i
  | Except.error _ => none

/-! ## The facade configuration -/

/-- The fixed collaborators of one `URLMetadataCache` instance: the
registered extractor instances (in registration order), the network, the
opaque `summarize_html` pure function (`parsing.py` is not under `src/`;
the spec treats it as an opaque `summarize(html) -> text`), and the
configured settle interval. -/
structure Config where
  exts : List Extractor
  net : NetOracle
  summarize : String → String
  sleep_time : Nat

/-- `URLMetadataCache.preprocess_url` (core.py lines 141-149): the generic
`clean_url` pass followed by each extractor's `preprocess_url` in
registration order. -/
def preprocess_url (exts : List Extractor) (url : String) : String :=
  exts.foldl (fun u e => e.preprocess_url u) (clean_url url)

/-- The summarization gating of `request_data` (core.py lines 182-192):
if `bool(metadata.info)` and a response was captured and its body is
non-empty, then either summarize (status below 400) or log a warning and
skip.  Returns the updated record and the warnings emitted. -/
def summarizeStep (summarize : String → String) (md : Metadata)
    (resp : Option Response) : Metadata × List String :=
  if truthy md.info then
    match resp with
    | some r =>
      if r.text.length > 0 then
        if r.status_code < 400 then
          ({ md with html_summary := some (summarize r.text) }, [])
        else
          (md, ["Response code for " ++ md.url ++ " is " ++
                toString r.status_code ++ ", skipping HTML extraction..."])
      else (md, [])
    | none => (md, [])
  else (md, [])

/-- Result of one `request_data` call: the record, the final
last-captured-response state, the number of `lassie.fetch` calls, the
total backoff waited, the settle sleep and the warnings of the
summarization step. -/
structure RDResult where
  metadata : Metadata
  response : Option Response
  attempts : Nat
  waited : Nat
  slept : Nat
  warnings : List String

/-- `URLMetadataCache.request_data` (core.py lines 151-198).  `st` is the
instance's last-captured-response state on entry; line 167
(`self._response = None`) discards it before the fetch.  Steps: preprocess
the URL, build the fresh record, fetch with retry (a propagated
`URLMetadataRequestException` is swallowed), sleep, run the summarization
gating, then each extractor hook whose `matches_site` accepts the URL, in
order. -/
def request_data (cfg : Config) (st : Option Response) (url : String)
    (ts : Nat) : RDResult :=
  let uurl := preprocess_url cfg.exts url
  let md0 : Metadata := { url := uurl, timestamp := ts }
  let resp0 : Option Response := none
  let fo := fetchLassie cfg.net uurl resp0
  let md1 : Metadata := { md0 with info := exceptInfo fo.result }
  let sws := summarizeStep cfg.summarize md1 fo.response
  let md3 := cfg.exts.foldl
    (fun m e => if e.matches_site uurl then e.extract_info uurl m else m) sws.1
  { metadata := md3, response := fo.response, attempts := fo.attempts
    waited := fo.waited, slept := cfg.sleep_time, warnings := sws.2 }

/-! ## The persistent metadata cache -/

/-- Modelled from the spec: `MetadataCache` (`cache.py` is not under
`src/`), section 4.2.  An entry maps the key to `some record` when the
stored file is readable, and to `none` when the entry is locatable
(`has` is true) but reading it fails; an absent key is a miss.  `put`
overwrites the entry for the key. -/
structure MetadataCache where
  entries : List (String × Option Metadata)
  deriving Repr, DecidableEq

/-- `MetadataCache.has`: true iff a stored entry is locatable for the key;
does not validate content. -/
def MetadataCache.has (c : MetadataCache) (url : String) : Bool :=
  (c.entries.lookup url).isSome

/-- `MetadataCache.get`: the stored record, or `None` when there is no
readable record (a miss, or a read failure on a locatable entry — core.py
distinguishes the two through `has`). -/
def MetadataCache.get (c : MetadataCache) (url : String) : Option Metadata :=
  (c.entries.lookup url).join

/-- `MetadataCache.put`: write/overwrite the record for the key. -/
def MetadataCache.put (c : MetadataCache) (url : String) (m : Metadata) :
    MetadataCache :=
  { entries := (url, some m) :: c.entries }

/-- The mutable state of one `URLMetadataCache` instance between calls:
the persistent metadata cache and the last-captured raw response. -/
structure CacheInstState where
  cache : MetadataCache
  response : Option Response

/-- `URLMetadataCache.in_cache` (core.py lines 255-258): note that it
preprocesses its argument (again). -/
def in_cache (cfg : Config) (c : MetadataCache) (url : String) : Bool :=
  c.has (preprocess_url cfg.exts url)

/-- Outcome of one facade `get` call: the returned record or the raised
`URLMetadataException` message, the instance state afterwards, the number
of network fetch operations performed (`request_data` invocations) and
the attempt/backoff totals. -/
structure GetOutcome where
  result : Except String Metadata
  state : CacheInstState
  fetches : Nat
  attempts : Nat
  waited : Nat

/-- `URLMetadataCache.get` (core.py lines 235-253): preprocess the URL;
if `in_cache(uurl)` is false (note: `in_cache` preprocesses `uurl` a
second time), fetch via `request_data(uurl)`, store under `uurl` and
return the record; otherwise read `metadata_cache.get(uurl)` and raise
`URLMetadataException` if it yields nothing. -/
def get (cfg : Config) (st : CacheInstState) (url : String) (ts : Nat) :
    GetOutcome :=
  let uurl := preprocess_url cfg.exts url
  if in_cache cfg st.cache uurl = false then
    let rd := request_data cfg st.response uurl ts
    { result := Except.ok rd.metadata
      state := { cache := st.cache.put uurl rd.metadata, response := rd.response }
      fetches := 1, attempts := rd.attempts, waited := rd.waited }
  else
    match st.cache.get uurl with
    | none =>
      { result := Except.error ("Failure retrieving information from cache for " ++ url)
        state := st, fetches := 0, attempts := 0, waited := 0 }
    | some fdata =>
      { result := Except.ok fdata, state := st, fetches := 0, attempts := 0, waited := 0 }

/-! ## Constructor: cache directory resolution (core.py lines 82-104) -/

/-- What the filesystem holds at a path. -/
inductive FSEntry
  | absent
  | dir
  | file
  deriving DecidableEq

/-- An abstract filesystem: path to entry. -/
structure FileSystem where
  lookup : String → FSEntry

/-- Create a directory at `p`. -/
def FileSystem.mkdir (fs : FileSystem) (p : String) : FileSystem :=
  ⟨fun q => if q = p then FSEntry.dir else fs.lookup q⟩

/-- The process environment of the constructor: home directory, working
directory, environment variables and the `appdirs.user_data_dir`
collaborator. -/
structure Platform where
  home : String
  cwd : String
  env : String → Option String
  dataDir : String → String

/-- Whether the second list is an initial segment of the first
(structurally recursive so that it evaluates definitionally). -/
def leadChars : List Char → List Char → Bool
  | _, [] => true
  | [], _ :: _ => false
  | c :: cs, p :: ps => (c == p) && leadChars cs ps

/-- Whether `s` starts with `pat`. -/
def strLeads (s pat : String) : Bool := leadChars s.data pat.data

/-- `Path(p).expanduser()` restricted to the leading-tilde forms `~` and
`~/...` (the `~user` form is outside the modelled fragment). -/
def expanduser (home p : String) : String :=
  if p = "~" then home
  else if strLeads p "~/" then home ++ p.drop 1
  else p

/-- `Path(p).absolute()`: prefix the working directory unless already
absolute. -/
def absolute (cwd p : String) : String :=
  if strLeads p "/" then p else cwd ++ "/" ++ p

/-- `utils.normalize_path` on a string argument:
`Path(p).expanduser().absolute()` (a `Path` argument is returned
unchanged by the source and is not modelled separately). -/
def normalize_path (home cwd p : String) : String :=
  absolute cwd (expanduser home p)

/-- The cache-root resolution of `URLMetadataCache.__init__` (core.py
lines 82-89): the explicit `cache_dir` argument (normalized), else the
`URL_METADATA_DIR` environment variable, else
`appdirs.user_data_dir("url_metadata")`. -/
def resolveCacheDir (pl : Platform) (cache_dir : Option String) : String :=
  match cache_dir with
  | some p => normalize_path pl.home pl.cwd p
  | none =>
    match pl.env "URL_METADATA_DIR" with
    | some v => v
    | none => pl.dataDir "url_metadata"

/-- The directory setup of `URLMetadataCache.__init__` (core.py lines
91-103): fail if the resolved root exists but is not a directory; create
it if missing; then create the `data` subdirectory if missing.  Returns
the resolved root and the updated filesystem, or the `RuntimeError`
message. -/
def initCacheDirs (pl : Platform) (fs : FileSystem) (cache_dir : Option String) :
    Except String (String × FileSystem) :=
  let cdir := resolveCacheDir pl cache_dir
  if fs.lookup cdir = FSEntry.file then
    Except.error ("'cache_dir' '" ++ cdir ++ "' already exists but is not a directory")
  else
    let fs1 := if fs.lookup cdir = FSEntry.absent then fs.mkdir cdir else fs
    let ddir := cdir ++ "/data"
    let fs2 := if fs1.lookup ddir = FSEntry.absent then fs1.mkdir ddir else fs1
    Except.ok (cdir, fs2)

/-! ## Constructor: extractor registration (core.py lines 129-139) -/

/-- An extractor class as seen by the registration loop: its printable
name and whether `issubclass(cls, AbstractSite)` holds. -/
structure ExtClass where
  name : String
  isSubclassOfAbstractSite : Bool
  deriving Repr, DecidableEq

/-- An instantiated extractor, `e(umc=self)`. -/
structure ExtInstance where
  cls : ExtClass
  deriving Repr, DecidableEq

/-- Instantiation of one extractor class. -/
def instantiate (c : ExtClass) : ExtInstance := ⟨c⟩

/-- The registration warning for one class, the f-string of core.py
line 134. -/
def extWarn (e : ExtClass) : String :=
  e.name ++ " is not a subclass of AbstractSite"

/-- The registration loop of `__init__` (core.py lines 131-135): for each
additional class, warn when it is not a subclass of `AbstractSite`, and
append it to the class list unconditionally.  Returns the final class
list and the warnings. -/
def registerExtractors (extractors : List ExtClass)
    (additional : Option (List ExtClass)) : List ExtClass × List String :=
  match additional with
  | none => (extractors, [])
  | some adds =>
    adds.foldl
      (fun acc ext =>
        (acc.1 ++ [ext],
         if ext.isSubclassOfAbstractSite then acc.2
         else acc.2 ++ [extWarn ext]))
      (extractors, [])

/-- The module-level state of `url_metadata.sites`: the shared
`EXTRACTORS` list (its concrete content, `sites/__init__.py`, is not
under `src/`; it is left abstract). -/
structure ModuleState where
  EXTRACTORS : List ExtClass
  deriving Repr, DecidableEq

/-- One constructed `URLMetadataCache`, as far as the extractor registry
is concerned. -/
structure ConstructedCache where
  extractor_classes : List ExtClass
  extractors : List ExtInstance
  warnings : List String
  deriving Repr, DecidableEq

/-- The extractor part of `URLMetadataCache.__init__` (core.py lines
129-139): `self.extractor_classes = EXTRACTORS` binds the module-level
list object itself, so the `.append` calls of the registration loop
mutate the module state — the updated list is both the new module state
and the instance's registry, which is then instantiated in order. -/
def constructCache (ms : ModuleState) (additional : Option (List ExtClass)) :
    ModuleState × ConstructedCache :=
  let rw := registerExtractors ms.EXTRACTORS additional
  (⟨rw.1⟩, ⟨rw.1, rw.1.map instantiate, rw.2⟩)

/-! ## Concrete instances for counterexamples and witnesses -/

/-- A network on which every attempt succeeds with one 200 response. -/
def netOK : NetOracle :=
  ⟨fun _ _ => { responses := [⟨"<html>hi</html>", 200⟩], result := some [("title", "t")] }⟩

/-- A network that is rate-limited (HTTP 429, `LassieError`) on every attempt. -/
def net429 : NetOracle :=
  ⟨fun _ _ => { responses := [⟨"", 429⟩], result := none }⟩

/-- A network on which every attempt fails with no response captured. -/
def netFail : NetOracle :=
  ⟨fun _ _ => { responses := [], result := none }⟩

/-- A facade configuration with no site extractors over `netOK`. -/
def cfg0 : Config :=
  { exts := [], net := netOK, summarize := fun s => s, sleep_time := 0 }

/-- A facade configuration with no site extractors over `netFail`. -/
def cfgF : Config :=
  { exts := [], net := netFail, summarize := fun s => s, sleep_time := 0 }

/-- A fresh instance state: empty cache, no captured response. -/
def st0 : CacheInstState := { cache := ⟨[]⟩, response := none }

/-- An instance state whose cache holds one locatable but unreadable
entry under the key `"k"`. -/
def stC6 : CacheInstState := { cache := ⟨[("k", none)]⟩, response := none }

/-- A record as it stands right before the summarization gating, with
truthy generic info. -/
def mdC4 : Metadata :=
  { url := "u", timestamp := 0, info := some [("title", "x")], html_summary := none }

/-- A concrete constructor platform: no environment variable set. -/
def pl0 : Platform :=
  { home := "/home/u", cwd := "/cwd", env := fun _ => none
    dataDir := fun s => "/data/" ++ s }

/-- A concrete constructor platform with `URL_METADATA_DIR` set. -/
def plEnv : Platform :=
  { home := "/home/u", cwd := "/cwd"
    env := fun k => if k = "URL_METADATA_DIR" then some "/envdir" else none
    dataDir := fun s => "/data/" ++ s }

/-- An empty filesystem. -/
def fs0 : FileSystem := ⟨fun _ => FSEntry.absent⟩

/-- A filesystem holding a plain file at `/tmp/c`. -/
def fsFile : FileSystem :=
  ⟨fun p => if p = "/tmp/c" then FSEntry.file else FSEntry.absent⟩

/-- A class that does not conform to the extractor contract. -/
def badClass : ExtClass := { name := "Bad", isSubclassOfAbstractSite := false }

/-- A class that conforms to the extractor contract. -/
def goodClass : ExtClass := { name := "Good", isSubclassOfAbstractSite := true }

/-! ## Helper lemmas -/

/-- One un-decorated `_fetch_lassie` call on a failing attempt returns no
dict, whatever the captured responses. -/
theorem fetchLassieOnce_result_none (net : NetOracle) (url : String) (k : Nat)
    (prior : Option Response) (h : (net.attempt url k).result = none) :
    (fetchLassieOnce net url k prior).result = none := by
  simp only [fetchLassieOnce, h]
  split <;> rfl

/-- If every attempt for `url` fails, the decorated fetch yields no dict:
either it returns `None` or the rate-limit exception propagates. -/
theorem fetchLassieFrom_all_fail (net : NetOracle) (url : String)
    (h : ∀ j, (net.attempt url j).result = none) :
    ∀ fuel k prior, exceptInfo (fetchLassieFrom net url k fuel prior).result = none := by
  intro fuel
  induction fuel with
  | zero =>
    intro k prior
    simp only [fetchLassieFrom]
    split
    · rfl
    · simp [exceptInfo, fetchLassieOnce_result_none net url k prior (h k)]
  | succ n ih =>
    intro k prior
    simp only [fetchLassieFrom]
    split
    · exact ih (k + 1) _
    · simp [exceptInfo, fetchLassieOnce_result_none net url k prior (h k)]

/-- The summarization gating is the identity when the generic info is
falsy. -/
theorem summarizeStep_not_truthy (f : String → String) (md : Metadata)
    (resp : Option Response) (h : truthy md.info = false) :
    summarizeStep f md resp = (md, []) := by
  simp [summarizeStep, h]

/-- The summarization gating never touches the `url` field. -/
theorem summarizeStep_url (f : String → String) (md : Metadata)
    (resp : Option Response) : (summarizeStep f md resp).1.url = md.url := by
  unfold summarizeStep
  split
  · cases resp with
    | none => rfl
    | some r => dsimp only; split <;> (try split) <;> rfl
  · rfl

/-- The extractor-hook fold is the identity when no extractor matches the
URL. -/
theorem foldl_extract_no_match (exts : List Extractor) (u : String) (m : Metadata)
    (h : ∀ e ∈ exts, e.matches_site u = false) :
    exts.foldl (fun m e => if e.matches_site u then e.extract_info u m else m) m = m := by
  induction exts generalizing m with
  | nil => rfl
  | cons a t ih =>
    have ha : a.matches_site u = false := h a (List.mem_cons_self a t)
    simp only [List.foldl_cons, ha, if_neg Bool.false_ne_true]
    exact ih m (fun e he => h e (List.mem_cons_of_mem a he))

/-- The extractor-hook fold preserves the `url` field whenever every
registered hook does. -/
theorem foldl_extract_url (exts : List Extractor) (u : String) (m : Metadata)
    (h : ∀ e ∈ exts, ∀ u' m', (e.extract_info u' m').url = m'.url) :
    (exts.foldl (fun m e => if e.matches_site u then e.extract_info u m else m) m).url
      = m.url := by
  induction exts generalizing m with
  | nil => rfl
  | cons a t ih =>
    simp only [List.foldl_cons]
    rw [ih _ (fun e he => h e (List.mem_cons_of_mem a he))]
    split
    · exact h a (List.mem_cons_self a t) u m
    · rfl

/-- `put` makes the key locatable. -/
theorem put_has (c : MetadataCache) (k : String) (m : Metadata) :
    (c.put k m).has k = true := by
  simp [MetadataCache.put, MetadataCache.has, List.lookup]

/-- `put` makes the stored record readable under the key. -/
theorem put_get (c : MetadataCache) (k : String) (m : Metadata) :
    (c.put k m).get k = some m := by
  simp [MetadataCache.put, MetadataCache.get, List.lookup]

/-- On a cache miss (as tested by re-preprocessing the already
preprocessed URL), `get` takes the fetch-and-store path. -/
theorem get_miss (cfg : Config) (st : CacheInstState) (url : String) (ts : Nat)
    (h : in_cache cfg st.cache (preprocess_url cfg.exts url) = false) :
    get cfg st url ts =
      { result := Except.ok (request_data cfg st.response (preprocess_url cfg.exts url) ts).metadata
        state := { cache := st.cache.put (preprocess_url cfg.exts url)
                     (request_data cfg st.response (preprocess_url cfg.exts url) ts).metadata
                   response := (request_data cfg st.response (preprocess_url cfg.exts url) ts).response }
        fetches := 1
        attempts := (request_data cfg st.response (preprocess_url cfg.exts url) ts).attempts
        waited := (request_data cfg st.response (preprocess_url cfg.exts url) ts).waited } := by
  simp [get, h]

/-- When the fetch collaborator fails on every attempt and no site hook
matches, `request_data` returns the bare record: normalized URL,
timestamp, no info, no summary. -/
theorem request_data_all_fail (cfg : Config) (st : Option Response) (url : String)
    (ts : Nat) (hfail : ∀ u j, (cfg.net.attempt u j).result = none)
    (hmatch : ∀ e ∈ cfg.exts, ∀ u, e.matches_site u = false) :
    (request_data cfg st url ts).metadata =
      { url := preprocess_url cfg.exts url, timestamp := ts
        info := none, html_summary := none } := by
  have hinfo := fetchLassieFrom_all_fail cfg.net (preprocess_url cfg.exts url)
    (hfail (preprocess_url cfg.exts url)) 2 0 none
  simp only [request_data, fetchLassie]
  rw [hinfo]
  simp only [summarizeStep, truthy]
  exact foldl_extract_no_match _ _ _ (fun e he => hmatch e he _)

/-! ## Claim theorems -/

/-- Claim C7: at the start of every `request_data` call the
last-captured-response state is discarded (core.py line 167 sets it to
`None` before any request), so the outcome of the call is independent of
whatever response a previous URL's fetch left behind and a stale response
is never observable by this call's summarization step. -/
theorem response_state_reset (cfg : Config) (st : Option Response) (url : String)
    (ts : Nat) : request_data cfg st url ts = request_data cfg none url ts := rfl

/-- Claim C2 counterexample: with a collaborator that is rate-limited on
every attempt, the decorated fetch makes exactly 3 attempts but the total
backoff waited is 13 + 21 = 34 seconds — not 13 + 21 + 34 = 68 as the
claim states (no wait follows the third, final attempt). -/
theorem backoff_total_cx :
    (fetchLassie net429 "https://example.com" none).attempts = 3 ∧
    (fetchLassie net429 "https://example.com" none).waited = 34 ∧
    ¬ (fetchLassie net429 "https://example.com" none).waited = 13 + 21 + 34 := by
  refine ⟨by decide, by decide, by decide⟩

/-- Claim C2 (amended): when the fetch collaborator signals a rate-limit
condition (HTTP 429 captured, `LassieError`) on every attempt, exactly 3
fetch attempts occur, the exception propagates, and the total backoff
waited equals the 7th plus the 8th Fibonacci term, 13 + 21 seconds (the
final failed attempt is not followed by a wait); the backoff sequence
starts at 13 by skipping the first six Fibonacci elements. -/
theorem rate_limit_three_attempts (net : NetOracle) (url : String)
    (prior : Option Response)
    (h : ∀ k, (net.attempt url k).result = none ∧
      ((net.attempt url k).responses.getLast?).map Response.status_code = some 429) :
    (fetchLassie net url prior).attempts = 3 ∧
    (fetchLassie net url prior).waited = fibo_backoff 0 + fibo_backoff 1 ∧
    fibo_backoff 0 = 13 ∧ fibo_backoff 1 = 21 ∧
    ∃ e, (fetchLassie net url prior).result = Except.error e := by
  obtain ⟨h0res, h0st⟩ := h 0
  obtain ⟨h1res, h1st⟩ := h 1
  obtain ⟨h2res, h2st⟩ := h 2
  obtain ⟨r0, hr0, hs0⟩ := Option.map_eq_some'.mp h0st
  obtain ⟨r1, hr1, hs1⟩ := Option.map_eq_some'.mp h1st
  obtain ⟨r2, hr2, hs2⟩ := Option.map_eq_some'.mp h2st
  have o0 : ∀ p, fetchLassieOnce net url 0 p = ⟨none, true, some r0⟩ := by
    intro p; simp [fetchLassieOnce, lastResponse, h0res, hr0, hs0]
  have o1 : ∀ p, fetchLassieOnce net url 1 p = ⟨none, true, some r1⟩ := by
    intro p; simp [fetchLassieOnce, lastResponse, h1res, hr1, hs1]
  have o2 : ∀ p, fetchLassieOnce net url 2 p = ⟨none, true, some r2⟩ := by
    intro p; simp [fetchLassieOnce, lastResponse, h2res, hr2, hs2]
  have main : fetchLassie net url prior =
      ⟨Except.error ("Received 429 for URL " ++ url ++ ", waiting to retry...")
       , some r2, 3, fibo_backoff 0 + (fibo_backoff 1 + 0)⟩ := by
    simp [fetchLassie, fetchLassieFrom, o0, o1, o2]
  refine ⟨by rw [main], by rw [main]; simp, by decide, by decide,
    ⟨"Received 429 for URL " ++ url ++ ", waiting to retry...", by rw [main]⟩⟩

/-- Claim C2 (amended) witness: the amended statement evaluated on a
concrete always-429 network. -/
theorem rate_limit_three_attempts_witness :
    (fetchLassie net429 "https://example.org" none).attempts = 3 ∧
    (fetchLassie net429 "https://example.org" none).waited = fibo_backoff 0 + fibo_backoff 1 ∧
    fibo_backoff 0 = 13 ∧ fibo_backoff 1 = 21 ∧
    ∃ e, (fetchLassie net429 "https://example.org" none).result = Except.error e :=
  rate_limit_three_attempts net429 "https://example.org" none (fun _ => ⟨rfl, rfl⟩)

/-- Claim C4: after the fetch step, `html_summary` is populated — with the
opaque summarizer applied to the captured raw response body — if and only
if the generic info was obtained (truthy, exactly `bool(metadata.info)`)
AND a raw response was captured AND its body is non-empty AND its status
code is below 400; and a warning is logged exactly when those conditions
hold except that the status is 400 or above, in which case summarization
is skipped; the step is a total function, so no exception is raised. -/
theorem summarize_gating (f : String → String) (md : Metadata)
    (resp : Option Response) (h : md.html_summary = none) :
    ((summarizeStep f md resp).1.html_summary ≠ none ↔
      (truthy md.info = true ∧
        ∃ r, resp = some r ∧ 0 < r.text.length ∧ r.status_code < 400)) ∧
    (∀ r, resp = some r → truthy md.info = true → 0 < r.text.length →
      r.status_code < 400 →
      (summarizeStep f md resp).1.html_summary = some (f r.text)) ∧
    ((summarizeStep f md resp).2 ≠ [] ↔
      (truthy md.info = true ∧
        ∃ r, resp = some r ∧ 0 < r.text.length ∧ 400 ≤ r.status_code)) ∧
    (∀ r, resp = some r → 400 ≤ r.status_code →
      (summarizeStep f md resp).1.html_summary = none) := by
  rcases resp with _ | r
  · have heq : summarizeStep f md none = (md, []) := by
      cases hi : truthy md.info
      · exact summarizeStep_not_truthy f md none hi
      · simp [summarizeStep, hi]
    refine ⟨by simp [heq, h], by simp, by simp [heq], by simp⟩
  · by_cases hi : truthy md.info = true
    · by_cases hl : 0 < r.text.length
      · by_cases hsc : r.status_code < 400
        · have heq : summarizeStep f md (some r) =
              ({ md with html_summary := some (f r.text) }, []) := by
            simp [summarizeStep, hi, hl, hsc]
          have hns : ¬ 400 ≤ r.status_code := by omega
          refine ⟨by simp [heq, hi, hl, hsc], ?_, by simp [heq, hns], ?_⟩
          · intro r' hr' _ _ _
            cases hr'
            simp [heq]
          · intro r' hr' hge
            cases hr'
            omega
        · have heq : summarizeStep f md (some r) =
              (md, ["Response code for " ++ md.url ++ " is " ++
                    toString r.status_code ++ ", skipping HTML extraction..."]) := by
            simp [summarizeStep, hi, hl, hsc]
          have hge : 400 ≤ r.status_code := by omega
          refine ⟨by simp [heq, h, hsc], ?_, by simp [heq, hi, hl, hge], ?_⟩
          · intro r' hr' _ _ hlt
            cases hr'
            exact absurd hlt hsc
          · intro r' hr' _
            cases hr'
            simp [heq, h]
      · have heq : summarizeStep f md (some r) = (md, []) := by
          simp [summarizeStep, hi, hl]
        refine ⟨by simp [heq, h, hl], ?_, by simp [heq, hl], ?_⟩
        · intro r' hr' _ hl'
          cases hr'
          exact absurd hl' hl
        · intro r' hr' _
          cases hr'
          simp [heq, h]
    · have hif : truthy md.info = false := Bool.eq_false_iff.mpr hi
      have heq := summarizeStep_not_truthy f md (some r) hif
      refine ⟨by simp [heq, h, hi], ?_, by simp [heq, hi], ?_⟩
      · intro r' hr' ht
        exact absurd ht hi
      · intro r' hr' _
        cases hr'
        simp [heq, h]

/-- Claim C4 witness: the gating evaluated on a truthy record and a
captured 200 response with non-empty body. -/
theorem summarize_gating_witness :
    (summarizeStep (fun s => s) mdC4 (some ⟨"<p>a</p>", 200⟩)).1.html_summary =
      some "<p>a</p>" :=
  (summarize_gating (fun s => s) mdC4 (some ⟨"<p>a</p>", 200⟩) rfl).2.1
    ⟨"<p>a</p>", 200⟩ rfl rfl (by decide) (by decide)

/-- Claim C8: the cache root is resolved in priority order — the explicit
`cache_dir` argument (normalized), else the `URL_METADATA_DIR`
environment variable, else the platform user-data directory — the
directory is created when missing, and construction fails with an error
when the resolved path exists as a non-directory. -/
theorem cache_dir_resolution (pl : Platform) (fs : FileSystem)
    (arg : Option String) :
    (∀ p, arg = some p →
      resolveCacheDir pl arg = normalize_path pl.home pl.cwd p) ∧
    (arg = none → ∀ v, pl.env "URL_METADATA_DIR" = some v →
      resolveCacheDir pl arg = v) ∧
    (arg = none → pl.env "URL_METADATA_DIR" = none →
      resolveCacheDir pl arg = pl.dataDir "url_metadata") ∧
    (fs.lookup (resolveCacheDir pl arg) = FSEntry.file →
      ∃ e, initCacheDirs pl fs arg = Except.error e) ∧
    (fs.lookup (resolveCacheDir pl arg) ≠ FSEntry.file →
      ∃ fs2, initCacheDirs pl fs arg = Except.ok (resolveCacheDir pl arg, fs2) ∧
        fs2.lookup (resolveCacheDir pl arg) = FSEntry.dir) := by
  refine ⟨?_, ?_, ?_, ?_, ?_⟩
  · intro p hp
    rw [hp]
    rfl
  · intro ha v hv
    rw [ha]
    simp [resolveCacheDir, hv]
  · intro ha hv
    rw [ha]
    simp [resolveCacheDir, hv]
  · intro hf
    refine ⟨"'cache_dir' '" ++ resolveCacheDir pl arg ++
      "' already exists but is not a directory", ?_⟩
    simp [initCacheDirs, hf]
  · intro hnf
    cases hc : fs.lookup (resolveCacheDir pl arg) with
    | file => exact absurd hc hnf
    | dir =>
      refine ⟨if fs.lookup (resolveCacheDir pl arg ++ "/data") = FSEntry.absent
              then fs.mkdir (resolveCacheDir pl arg ++ "/data") else fs, ?_, ?_⟩
      · simp [initCacheDirs, hc]
      · split <;> simp [FileSystem.mkdir, hc]
    | absent =>
      refine ⟨if (fs.mkdir (resolveCacheDir pl arg)).lookup
                  (resolveCacheDir pl arg ++ "/data") = FSEntry.absent
              then (fs.mkdir (resolveCacheDir pl arg)).mkdir
                  (resolveCacheDir pl arg ++ "/data")
              else fs.mkdir (resolveCacheDir pl arg), ?_, ?_⟩
      · simp [initCacheDirs, hc]
      · split <;> simp [FileSystem.mkdir]

/-- Claim C8 witness: on an empty filesystem with an explicit absolute
argument, construction succeeds and the resolved root is a directory
afterwards; with the environment variable and the fallback, resolution
picks them in turn; and on a filesystem where the path is a plain file,
construction fails. -/
theorem cache_dir_resolution_witness :
    (∃ fs2, initCacheDirs pl0 fs0 (some "/tmp/c") =
        Except.ok (resolveCacheDir pl0 (some "/tmp/c"), fs2) ∧
      fs2.lookup (resolveCacheDir pl0 (some "/tmp/c")) = FSEntry.dir) ∧
    resolveCacheDir plEnv none = "/envdir" ∧
    resolveCacheDir pl0 none = "/data/url_metadata" ∧
    (∃ e, initCacheDirs pl0 fsFile (some "/tmp/c") = Except.error e) :=
  ⟨(cache_dir_resolution pl0 fs0 (some "/tmp/c")).2.2.2.2 (by simp [fs0]),
   (cache_dir_resolution plEnv fs0 none).2.1 rfl "/envdir" rfl,
   (cache_dir_resolution pl0 fs0 none).2.2.1 rfl rfl,
   (cache_dir_resolution pl0 fsFile (some "/tmp/c")).2.2.2.1 (by
     show fsFile.lookup (resolveCacheDir pl0 (some "/tmp/c")) = FSEntry.file
     rfl)⟩

/-- The registration loop, characterized: the additional classes are all
appended in order, and the warnings are exactly those for the
non-conforming ones. -/
theorem registerExtractors_some (ex : List ExtClass) (adds : List ExtClass) :
    registerExtractors ex (some adds) =
      (ex ++ adds,
       (adds.filter (fun e => !e.isSubclassOfAbstractSite)).map extWarn) := by
  show adds.foldl _ (ex, []) = _
  suffices hgen : ∀ (l : List ExtClass) (acc : List ExtClass) (ws : List String),
      l.foldl
        (fun acc ext =>
          (acc.1 ++ [ext],
           if ext.isSubclassOfAbstractSite then acc.2 else acc.2 ++ [extWarn ext]))
        (acc, ws) =
      (acc ++ l, ws ++ (l.filter (fun e => !e.isSubclassOfAbstractSite)).map extWarn) by
    simpa using hgen adds ex []
  intro l
  induction l with
  | nil => intro acc ws; simp
  | cons a t ih =>
    intro acc ws
    cases hsub : a.isSubclassOfAbstractSite with
    | true => simp [hsub, ih]
    | false => simp [hsub, ih]

/-- Claim C9: every class passed via `additional_extractors` that is not
a subclass of `AbstractSite` triggers a warning at construction but is
still registered: it is appended to the registry and instantiated
alongside the conforming extractors. -/
theorem nonconforming_extractor_registered (ms : ModuleState)
    (adds : List ExtClass) (ext : ExtClass) (hmem : ext ∈ adds)
    (hbad : ext.isSubclassOfAbstractSite = false) :
    extWarn ext ∈ (constructCache ms (some adds)).2.warnings ∧
    ext ∈ (constructCache ms (some adds)).2.extractor_classes ∧
    instantiate ext ∈ (constructCache ms (some adds)).2.extractors := by
  simp only [constructCache, registerExtractors_some]
  refine ⟨?_, ?_, ?_⟩
  · exact List.mem_map_of_mem _ (List.mem_filter.mpr ⟨hmem, by simp [hbad]⟩)
  · exact List.mem_append_right _ hmem
  · exact List.mem_map_of_mem _ (List.mem_append_right _ hmem)

/-- Claim C9 witness: a non-conforming class passed at construction is
warned about, registered and instantiated. -/
theorem nonconforming_extractor_registered_witness :
    extWarn badClass ∈ (constructCache ⟨[goodClass]⟩ (some [badClass])).2.warnings ∧
    badClass ∈ (constructCache ⟨[goodClass]⟩ (some [badClass])).2.extractor_classes ∧
    instantiate badClass ∈ (constructCache ⟨[goodClass]⟩ (some [badClass])).2.extractors :=
  nonconforming_extractor_registered ⟨[goodClass]⟩ [badClass] badClass
    (List.mem_singleton.mpr rfl) rfl

/-- Claim C10: constructing a `URLMetadataCache` with
`additional_extractors` appends those classes to the shared module-level
`EXTRACTORS` list itself — the instance's `extractor_classes` is that
very list, not a copy — so the added classes are present in the registry
of every instance constructed afterwards in the same process. -/
theorem extractors_global_mutation (ms : ModuleState) (adds : List ExtClass)
    (x : ExtClass) (hmem : x ∈ adds) :
    (constructCache ms (some adds)).2.extractor_classes =
      (constructCache ms (some adds)).1.EXTRACTORS ∧
    x ∈ (constructCache ms (some adds)).1.EXTRACTORS ∧
    ∀ additional2,
      x ∈ (constructCache (constructCache ms (some adds)).1
            additional2).2.extractor_classes := by
  refine ⟨rfl, ?_, ?_⟩
  · simp only [constructCache, registerExtractors_some]
    exact List.mem_append_right _ hmem
  · intro additional2
    cases additional2 with
    | none =>
      have hn : ∀ ex : List ExtClass, registerExtractors ex none = (ex, []) :=
        fun ex => rfl
      simp only [constructCache, hn, registerExtractors_some]
      exact List.mem_append_right _ hmem
    | some l2 =>
      simp only [constructCache, registerExtractors_some]
      exact List.mem_append_left _ (List.mem_append_right _ hmem)

/-- `request_data` stamps the record's `url` field with the preprocessed
form of its argument, and neither the summarization gating nor
url-preserving extractor hooks change it. -/
theorem request_data_url (cfg : Config) (st : Option Response) (url : String)
    (ts : Nat)
    (hpres : ∀ e ∈ cfg.exts, ∀ u m, (e.extract_info u m).url = m.url) :
    (request_data cfg st url ts).metadata.url = preprocess_url cfg.exts url := by
  simp only [request_data]
  rw [foldl_extract_url _ _ _ hpres, summarizeStep_url]

/-- Claim C6: when the cache reports an entry as present (`has` through
`in_cache` is true) but the subsequent read fails, `get` raises the
fatal `URLMetadataException` for that call — it does not silently
re-fetch; and a miss on an absent entry is the distinct signal that takes
the fetch path, returning a record instead of an error. -/
theorem cache_read_failure_fatal (cfg : Config) (st : CacheInstState)
    (url : String) (ts : Nat) :
    (in_cache cfg st.cache (preprocess_url cfg.exts url) = true →
      st.cache.get (preprocess_url cfg.exts url) = none →
      (get cfg st url ts).result =
        Except.error ("Failure retrieving information from cache for " ++ url) ∧
      (get cfg st url ts).fetches = 0) ∧
    (in_cache cfg st.cache (preprocess_url cfg.exts url) = false →
      (get cfg st url ts).fetches = 1 ∧
      ∃ m, (get cfg st url ts).result = Except.ok m) := by
  constructor
  · intro h1 h2
    constructor <;> simp [get, h1, h2]
  · intro h1
    refine ⟨by simp [get, h1],
      ⟨(request_data cfg st.response (preprocess_url cfg.exts url) ts).metadata,
        by simp [get, h1]⟩⟩

/-- Claim C6 witness: on a cache holding a locatable but unreadable entry
for the key, `get` returns the fatal error and performs no fetch; on a
fresh cache it takes the fetch path. -/
theorem cache_read_failure_fatal_witness :
    ((get cfg0 stC6 "k" 0).result =
        Except.error ("Failure retrieving information from cache for " ++ "k") ∧
      (get cfg0 stC6 "k" 0).fetches = 0) ∧
    ((get cfg0 st0 "k" 0).fetches = 1 ∧
      ∃ m, (get cfg0 st0 "k" 0).result = Except.ok m) :=
  ⟨(cache_read_failure_fatal cfg0 stC6 "k" 0).1 (by decide) (by decide),
   (cache_read_failure_fatal cfg0 st0 "k" 0).2 (by decide)⟩

/-- Claim C5: when the fetch collaborator fails on every attempt — any
non-rate-limit failure, or rate-limit retries exhausted — and no site
extractor matches, `get` on an uncached URL still returns a `Metadata`
record (an `Except.ok`, never a raised exception), with `info` absent and
`html_summary` absent. -/
theorem fetch_failure_returns_record (cfg : Config) (st : CacheInstState)
    (url : String) (ts : Nat)
    (hfail : ∀ u j, (cfg.net.attempt u j).result = none)
    (hmatch : ∀ e ∈ cfg.exts, ∀ u, e.matches_site u = false)
    (hmiss : in_cache cfg st.cache (preprocess_url cfg.exts url) = false) :
    ∃ m, (get cfg st url ts).result = Except.ok m ∧
      m.info = none ∧ m.html_summary = none := by
  refine ⟨(request_data cfg st.response (preprocess_url cfg.exts url) ts).metadata,
    ?_, ?_, ?_⟩
  · simp [get, hmiss]
  · rw [request_data_all_fail cfg st.response _ ts hfail hmatch]
  · rw [request_data_all_fail cfg st.response _ ts hfail hmatch]

/-- Claim C5 witness: over a network failing every attempt, `get` on a
fresh cache returns a record with both optional fields absent. -/
theorem fetch_failure_returns_record_witness :
    ∃ m, (get cfgF st0 "https://fail.example" 0).result = Except.ok m ∧
      m.info = none ∧ m.html_summary = none :=
  fetch_failure_returns_record cfgF st0 "https://fail.example" 0
    (fun _ _ => rfl) (by intro e he; simp [cfgF] at he) (by decide)

/-- Claim C1 counterexample: because `get` checks the cache through
`in_cache`, which preprocesses the already-preprocessed URL once more,
while `put` stores under the once-preprocessed key, a URL on which
normalization is not idempotent is never found in the cache: two
successive `get` calls on `"a%2520b"` both fetch (one fetch each), so
the pair performs two fetches, not one, and the second call is not
served from the cache. -/
theorem get_twice_two_fetches_cx :
    (get cfg0 st0 "a%2520b" 0).fetches = 1 ∧
    (get cfg0 (get cfg0 st0 "a%2520b" 0).state "a%2520b" 1).fetches = 1 ∧
    ¬ ((get cfg0 st0 "a%2520b" 0).fetches +
        (get cfg0 (get cfg0 st0 "a%2520b" 0).state "a%2520b" 1).fetches = 1) :=
  ⟨by decide, by decide, by decide⟩

/-- Claim C1 (amended): for every URL on which normalization is
idempotent, calling the facade's `get` twice in sequence on a URL not in
cache performs exactly one network fetch — the first call fetches once,
the second performs no fetch and is served from the cache — and the
second call's returned record equals the first's, hence all fixed fields
(url, timestamp, info, html_summary) agree. -/
theorem get_idempotent_single_fetch (cfg : Config) (st : CacheInstState)
    (url : String) (ts1 ts2 : Nat)
    (hidem : preprocess_url cfg.exts (preprocess_url cfg.exts url) =
      preprocess_url cfg.exts url)
    (hmiss : in_cache cfg st.cache url = false) :
    (get cfg st url ts1).fetches = 1 ∧
    (get cfg (get cfg st url ts1).state url ts2).fetches = 0 ∧
    (get cfg (get cfg st url ts1).state url ts2).result =
      (get cfg st url ts1).result := by
  have hguard : in_cache cfg st.cache (preprocess_url cfg.exts url) = false := by
    have hx : in_cache cfg st.cache (preprocess_url cfg.exts url)
        = st.cache.has (preprocess_url cfg.exts (preprocess_url cfg.exts url)) := rfl
    rw [hx, hidem]
    exact hmiss
  have h1 := get_miss cfg st url ts1 hguard
  have hhit : in_cache cfg (st.cache.put (preprocess_url cfg.exts url)
      (request_data cfg st.response (preprocess_url cfg.exts url) ts1).metadata)
      (preprocess_url cfg.exts url) = true := by
    show (st.cache.put _ _).has
      (preprocess_url cfg.exts (preprocess_url cfg.exts url)) = true
    rw [hidem]
    exact put_has _ _ _
  have hread := put_get st.cache (preprocess_url cfg.exts url)
    (request_data cfg st.response (preprocess_url cfg.exts url) ts1).metadata
  refine ⟨by rw [h1], ?_, ?_⟩
  · rw [h1]
    simp [get, hhit, hread]
  · rw [h1]
    simp [get, hhit, hread]

/-- Claim C1 (amended) witness: two sequential `get` calls on the (clean,
idempotently-normalizing) URL `"hello"`: one fetch, then a cache hit with
the same record. -/
theorem get_idempotent_single_fetch_witness :
    (get cfg0 st0 "hello" 0).fetches = 1 ∧
    (get cfg0 (get cfg0 st0 "hello" 0).state "hello" 1).fetches = 0 ∧
    (get cfg0 (get cfg0 st0 "hello" 0).state "hello" 1).result =
      (get cfg0 st0 "hello" 0).result :=
  get_idempotent_single_fetch cfg0 st0 "hello" 0 1 (by decide) (by decide)

/-- Claim C3 counterexample: for the raw URL `"a%2520b"` the cache key is
its normalized form `"a%20b"`, but the record stored and returned by a
fresh `get` carries `url = "a b"` — `request_data` re-normalizes the
already normalized URL — so a stored record's `url` field is not the
normalized form of the requested URL. -/
theorem stored_url_not_normalized_cx :
    preprocess_url cfg0.exts "a%2520b" = "a%20b" ∧
    (get cfg0 st0 "a%2520b" 0).state.cache.entries.lookup "a%20b" =
      some (some { url := "a b", timestamp := 0, info := some [("title", "t")],
                   html_summary := some "<html>hi</html>" }) ∧
    ¬ (("a b" : String) = "a%20b") :=
  ⟨by decide, by decide, by decide⟩

/-- Claim C3 (amended): for URLs on which normalization is idempotent
(and extractor hooks that do not rewrite the `url` field), a stored
record's `url` is the normalized form of the requested URL; and two raw
URL strings with the same normalized form resolve to the same cache
entry and never produce two independent records: after `get(r1)`, a
`get(r2)` with the same normalized form performs no fetch and returns
the very record stored by the first call. -/
theorem normalized_url_cache_key (cfg : Config) (st : CacheInstState)
    (r1 r2 : String) (ts1 ts2 : Nat)
    (hpres : ∀ e ∈ cfg.exts, ∀ u m, (e.extract_info u m).url = m.url)
    (hidem : preprocess_url cfg.exts (preprocess_url cfg.exts r1) =
      preprocess_url cfg.exts r1)
    (heq : preprocess_url cfg.exts r1 = preprocess_url cfg.exts r2)
    (hmiss : in_cache cfg st.cache r1 = false) :
    (∀ m, (get cfg st r1 ts1).result = Except.ok m →
      m.url = preprocess_url cfg.exts r1) ∧
    (get cfg (get cfg st r1 ts1).state r2 ts2).fetches = 0 ∧
    (get cfg (get cfg st r1 ts1).state r2 ts2).result =
      (get cfg st r1 ts1).result := by
  have hguard : in_cache cfg st.cache (preprocess_url cfg.exts r1) = false := by
    have hx : in_cache cfg st.cache (preprocess_url cfg.exts r1)
        = st.cache.has (preprocess_url cfg.exts (preprocess_url cfg.exts r1)) := rfl
    rw [hx, hidem]
    exact hmiss
  have h1 := get_miss cfg st r1 ts1 hguard
  have hhit : in_cache cfg (st.cache.put (preprocess_url cfg.exts r1)
      (request_data cfg st.response (preprocess_url cfg.exts r1) ts1).metadata)
      (preprocess_url cfg.exts r2) = true := by
    show (st.cache.put _ _).has
      (preprocess_url cfg.exts (preprocess_url cfg.exts r2)) = true
    rw [← heq, hidem]
    exact put_has _ _ _
  have hread : (st.cache.put (preprocess_url cfg.exts r1)
      (request_data cfg st.response (preprocess_url cfg.exts r1) ts1).metadata).get
      (preprocess_url cfg.exts r2) = some
      (request_data cfg st.response (preprocess_url cfg.exts r1) ts1).metadata := by
    rw [← heq]
    exact put_get _ _ _
  refine ⟨?_, ?_, ?_⟩
  · intro m hm
    rw [h1] at hm
    have hm2 : (request_data cfg st.response (preprocess_url cfg.exts r1) ts1).metadata
        = m := by
      exact Except.ok.inj hm
    rw [← hm2, request_data_url cfg st.response _ ts1 hpres, hidem]
  · rw [h1]
    simp [get, hhit, hread]
  · rw [h1]
    simp [get, hhit, hread]

/-- Claim C3 (amended) witness: `"hello"` and `" hello "` normalize to
the same key; the first `get` stores a record whose `url` is that key
and the second raw spelling is served from the same entry without a
fetch. -/
theorem normalized_url_cache_key_witness :
    (∀ m, (get cfg0 st0 "hello" 0).result = Except.ok m →
      m.url = preprocess_url cfg0.exts "hello") ∧
    (get cfg0 (get cfg0 st0 "hello" 0).state " hello " 1).fetches = 0 ∧
    (get cfg0 (get cfg0 st0 "hello" 0).state " hello " 1).result =
      (get cfg0 st0 "hello" 0).result :=
  normalized_url_cache_key cfg0 st0 "hello" " hello " 0 1
    (by intro e he; simp [cfg0] at he) (by decide) (by decide) (by decide)

/-- Claim C10 witness: a class added by one construction is present in the
module list and in the registry of a later construction. -/
theorem extractors_global_mutation_witness :
    (constructCache ⟨[goodClass]⟩ (some [badClass])).2.extractor_classes =
      (constructCache ⟨[goodClass]⟩ (some [badClass])).1.EXTRACTORS ∧
    badClass ∈ (constructCache ⟨[goodClass]⟩ (some [badClass])).1.EXTRACTORS ∧
    ∀ additional2,
      badClass ∈ (constructCache (constructCache ⟨[goodClass]⟩ (some [badClass])).1
            additional2).2.extractor_classes :=
  extractors_global_mutation ⟨[goodClass]⟩ [badClass] badClass
    (List.mem_singleton.mpr rfl)

end UrlMeta
